import Mathlib

/-!
Verification of the cognitive self-assessment client (heuristic risk
estimator, cognitive task generation, remote-result polling, chat fallback
matcher, chat send handler) against its specification.

The embedding is shallow: the TypeScript functions are translated into Lean
definitions.  JavaScript numbers are modelled as exact rationals (`ℚ`);
`Math.random`-driven shuffles are modelled by explicit shuffle oracles, one
per call site, assumed only to permute their input; asynchronous remote
calls are modelled by explicit outcome functions.
-/

namespace Sih

/-! ## Speech tasks (the `SPEECH_TASKS` constant) -/

structure SpeechTask where
  id : String
  title : String
  description : String
  prompt : String
  maxDurationMs : Option ℚ
deriving DecidableEq, Repr

def SPEECH_TASKS : List SpeechTask :=
  [ { id := "picture-description"
    , title := "Picture Description"
    , description := "Describe the scene shown in the picture prompt in as much detail as possible."
    , prompt := "Imagine you are looking at a photo of a family cooking together in a kitchen. Describe everything you see."
    , maxDurationMs := some 90000 }
  , { id := "story-recall"
    , title := "Story Recall"
    , description := "Listen to a short story and retell it in your own words."
    , prompt := "Recall a memorable event from your life and describe what happened, who was involved, and how it made you feel."
    , maxDurationMs := some 120000 }
  , { id := "free-conversation"
    , title := "Open Conversation"
    , description := "Speak freely about any topic of your choice for at least one minute."
    , prompt := "Share your thoughts about how technology has changed communication in your lifetime."
    , maxDurationMs := some 90000 } ]

/-! ## Heuristic risk estimator (`handleCognitiveComplete`, heuristic branch) -/

/-- The four cognitive sub-scores of `CognitiveCompletionPayload`. -/
structure Scores where
  memoryScore : ℚ
  attentionScore : ℚ
  languageScore : ℚ
  executiveScore : ℚ
deriving DecidableEq, Repr

/-- The `speechDurations` record: speech-task id to recorded duration (ms);
`none` when the task was never uploaded (`speechDurations[t.id] ?? 0`). -/
def DurationMap : Type := String → Option ℚ

/-- Speech-coverage term of the heuristic.  Direct translation of

    const expected = SPEECH_TASKS.map((t) => t.maxDurationMs ?? 60_000);
    const recorded = SPEECH_TASKS.map((t) =>
      Math.min(speechDurations[t.id] ?? 0, t.maxDurationMs ?? 60_000));
    const coverage = recorded.length
      ? recorded.reduce((a, b, i) => a + (expected[i] ? b / expected[i] : 0), 0)
          / recorded.length
      : 0.5; // neutral if no speech

JavaScript truthiness on `expected[i]` (a number) means "non-zero", and on
`recorded.length` it means "the array is non-empty". -/
def speechCoverage (durs : DurationMap) : ℚ :=
  let expected := SPEECH_TASKS.map (fun t => t.maxDurationMs.getD 60000)
  let recorded := SPEECH_TASKS.map
    (fun t => min ((durs t.id).getD 0) (t.maxDurationMs.getD 60000))
  if recorded.length ≠ 0 then
    ((recorded.zip expected).foldl
        (fun a p => a + (if p.2 ≠ 0 then p.1 / p.2 else 0)) 0)
      / (recorded.length : ℚ)
  else 0.5

/-- The heuristic probability of `handleCognitiveComplete`:

    const domainMax = { memoryScore: 2, attentionScore: 4, languageScore: 1, executiveScore: 1 };
    const mem = Math.min(1, scores.memoryScore / domainMax.memoryScore);
    ...
    const cognitiveAvg = (mem + att + lang + exec) / 4;
    let probability = 1 - (0.7 * cognitiveAvg + 0.3 * coverage);
    probability = Math.min(0.98, Math.max(0.02, probability)); -/
def heuristicProbability (scores : Scores) (durs : DurationMap) : ℚ :=
  let mem := min 1 (scores.memoryScore / 2)
  let att := min 1 (scores.attentionScore / 4)
  let lang := min 1 (scores.languageScore / 1)
  let execu := min 1 (scores.executiveScore / 1)
  let cognitiveAvg := (mem + att + lang + execu) / 4
  let coverage := speechCoverage durs
  min 0.98 (max 0.02 (1 - (0.7 * cognitiveAvg + 0.3 * coverage)))

/-- `probability > 0.66 ? "High" : probability > 0.33 ? "Medium" : "Low"` -/
def riskLevel (probability : ℚ) : String :=
  if probability > 0.66 then "High"
  else if probability > 0.33 then "Medium"
  else "Low"

/-- Ordering of the three risk levels, Low < Medium < High. -/
def levelRank (level : String) : Nat :=
  if level = "High" then 2 else if level = "Medium" then 1 else 0

/-! ## Remote-scoring polling loop (`handleCognitiveComplete`, remote branch)

    let fetched: AssessmentResult | null = null;
    for (let i = 0; i < 15; i++) {
      try { fetched = await fetchAssessmentResult(...); break; }
      catch (err) { await sleep(1000); }
    }
    if (fetched) { ... } else { toast("Prediction pending" ...); }

The i-th fetch attempt is modelled by `f i : Option α` (`none` = the call
threw).  `pollAux` returns the fetched value, the number of fetch attempts
made, and the list of sleep durations (ms) performed. -/

def pollAux {α : Type} (f : Nat → Option α) : Nat → Nat → Option α × Nat × List Nat
  | _, 0 => (none, 0, [])
  | i, n + 1 =>
    match f i with
    | some r => (some r, 1, [])
    | none =>
      let p := pollAux f (i + 1) n
      (p.1, p.2.1 + 1, 1000 :: p.2.2)

def pollLoop {α : Type} (f : Nat → Option α) : Option α × Nat × List Nat :=
  pollAux f 0 15

/-- What the UI reports after the polling loop. -/
inductive RemoteOutcome (α : Type) where
  | shown (r : α)
  | pendingNotice
deriving DecidableEq, Repr

/-- The remote path never rethrows: a fetched result is shown, exhaustion
of the 15 attempts yields the "Prediction pending" toast. -/
def remotePath {α : Type} (f : Nat → Option α) : RemoteOutcome α :=
  match (pollLoop f).1 with
  | some r => RemoteOutcome.shown r
  | none => RemoteOutcome.pendingNotice

/-! ## Cognitive task generation -/

/-- The `CognitiveTask` record.  `sequenceAnswer` holds JavaScript
`indexOf` results, which can be `-1`, hence `List Int`. -/
structure CognitiveTask where
  id : String
  type : String
  title : String
  description : String
  prompt : String
  options : Option (List String)
  correctAnswer : Option Nat
  sequenceAnswer : Option (List Int)
deriving DecidableEq, Repr

/-- JavaScript `Array.prototype.indexOf`: index of the first occurrence,
or `-1` when absent. -/
def jsIndexOf {α : Type} [DecidableEq α] : List α → α → Int
  | [], _ => -1
  | b :: l, a =>
    if a = b then 0
    else if jsIndexOf l a < 0 then -1 else jsIndexOf l a + 1

/-- Helper for `jsSetDedup`: drop every element already in `seen`. -/
def jsSetDedupAux {α : Type} [DecidableEq α] : List α → List α → List α
  | [], _ => []
  | a :: l, seen =>
    if a ∈ seen then jsSetDedupAux l seen else a :: jsSetDedupAux l (a :: seen)

/-- JavaScript `Array.from(new Set(l))`: keep the first occurrence of each
value, in insertion order. -/
def jsSetDedup {α : Type} [DecidableEq α] (l : List α) : List α :=
  jsSetDedupAux l []

/-- Shuffle oracles, one per `shuffle(...)` call site of a single run of
`generateCognitiveTasks`.  The source shuffles with
`[...arr].sort(() => Math.random() - 0.5)`, which always returns some
permutation of the array; theorems assume only `Rand.Lawful`. -/
structure Rand where
  shLexA : List String → List String
  shLexB : List String → List String
  shWordsA : List String → List String
  shWordsB : List String → List String
  shDigPool1 : List Nat → List Nat
  shDig091 : List Nat → List Nat
  shDigPool2 : List Nat → List Nat
  shDig092 : List Nat → List Nat

def Rand.Lawful (r : Rand) : Prop :=
  (∀ l, (r.shLexA l).Perm l) ∧ (∀ l, (r.shLexB l).Perm l) ∧
  (∀ l, (r.shWordsA l).Perm l) ∧ (∀ l, (r.shWordsB l).Perm l) ∧
  (∀ l, (r.shDigPool1 l).Perm l) ∧ (∀ l, (r.shDig091 l).Perm l) ∧
  (∀ l, (r.shDigPool2 l).Perm l) ∧ (∀ l, (r.shDig092 l).Perm l)

/-- The oracle that leaves every list unshuffled (one possible outcome of
the JavaScript shuffle). -/
def idRand : Rand :=
  { shLexA := id, shLexB := id, shWordsA := id, shWordsB := id
  , shDigPool1 := id, shDig091 := id, shDigPool2 := id, shDig092 := id }

theorem idRand_lawful : Rand.Lawful idRand :=
  ⟨fun l => List.Perm.refl l, fun l => List.Perm.refl l, fun l => List.Perm.refl l,
   fun l => List.Perm.refl l, fun l => List.Perm.refl l, fun l => List.Perm.refl l,
   fun l => List.Perm.refl l, fun l => List.Perm.refl l⟩

/-- `makeWordRecallTask(id, title, words)`; `sh` stands for the
`shuffle(words)` call. -/
def makeWordRecallTask (sh : List String → List String) (id title : String)
    (words : List String) : CognitiveTask :=
  let options := sh words
  let sequenceAnswer := words.map (fun w => jsIndexOf options w)
  { id := id
  , type := "word-recall"
  , title := title
  , description := "Remember the list of words and tap them in the same order after Begin."
  , prompt := "Remember the words: " ++ String.intercalate ", " words ++ "."
  , options := some options
  , correctAnswer := none
  , sequenceAnswer := some sequenceAnswer }

/-- `makeDigitSpanTask(id, title, digits)`;
`shPool` is the outer `shuffle(Array.from(new Set([...])))` call and
`shDigits` the inner `shuffle([0,...,9])` call. -/
def makeDigitSpanTask (shPool shDigits : List Nat → List Nat) (id title : String)
    (digits : List Nat) : CognitiveTask :=
  let pool := shPool (jsSetDedup (digits ++ (shDigits [0,1,2,3,4,5,6,7,8,9]).take 5))
  let options := pool.map toString
  let sequenceAnswer := digits.map (fun d => jsIndexOf options (toString d))
  { id := id
  , type := "digit-span"
  , title := title
  , description := "Tap the digits in the exact order after Begin."
  , prompt := String.intercalate ", " (digits.map toString)
  , options := some options
  , correctAnswer := none
  , sequenceAnswer := some sequenceAnswer }

def WORDS_EN : List String :=
  ["Apple", "Train", "Moon", "Garden", "Candle", "Bridge", "Star", "Window",
   "River", "Mirror", "Bottle"]

def WORDS_HI : List String :=
  ["सेब", "रेल", "चाँद", "बाग", "मोमबत्ती", "पुल", "तारा", "खिड़की", "नदी", "आईना", "बोतल"]

def WORDS_BN : List String :=
  ["আপেল", "ট্রেন", "চাঁদ", "উদ্যান", "মোমবাতি", "সেতু", "তারকা", "জানালা", "নদী", "আয়না", "বোতল"]

def WORDS_TA : List String :=
  ["ஆப்பிள்", "ரயில்", "நிலா", "தோட்டம்", " மெழுகுவர்த்தி", "பாலம்", "நட்சத்திரம்",
   "ஜன்னல்", "நதி", "கண்ணாடி", "பாட்டில்"]

/-- Lookup in the `WORDS_BY_LANG` record (`none` for an unknown key). -/
def wordsByLang (language : String) : Option (List String) :=
  if language = "en" then some WORDS_EN
  else if language = "hi" then some WORDS_HI
  else if language = "bn" then some WORDS_BN
  else if language = "ta" then some WORDS_TA
  else none

/-- `generateCognitiveTasks(language)`, with every `shuffle` call replaced
by the corresponding oracle field of `r`. -/
def generateCognitiveTasks (r : Rand) (language : String) : List CognitiveTask :=
  let lex := (wordsByLang language).getD WORDS_EN
  let poolA := (r.shLexA lex).take 5
  let poolB := (r.shLexB (lex.filter (fun w => !(poolA.contains w)))).take 5
  let word1 := makeWordRecallTask r.shWordsA "word-recall" "Word Recall" poolA
  let word2 := makeWordRecallTask r.shWordsB "word-recall-2" "Word Recall II" poolB
  let digit1 := makeDigitSpanTask r.shDigPool1 r.shDig091 "digit-span" "Digit Span" [3, 9, 1, 4, 7]
  let digit2 := makeDigitSpanTask r.shDigPool2 r.shDig092 "digit-span-reverse" "Digit Span (Reverse)" [7, 2, 9, 3]
  let attention1 : CognitiveTask :=
    { id := "attention-sequence"
    , type := "attention"
    , title := "Attention Pattern"
    , description := "Continue the color sequence."
    , prompt := "Red → Blue → Red → Blue → ?"
    , options := some ["Red", "Blue", "Green"]
    , correctAnswer := some 0
    , sequenceAnswer := none }
  let visualSearch : CognitiveTask :=
    { id := "attention-visual"
    , type := "attention"
    , title := "Visual Search"
    , description := "Find the odd-one-out."
    , prompt := "Square, Square, Circle, Square → Which is different?"
    , options := some ["Circle", "Square", "Triangle"]
    , correctAnswer := some 0
    , sequenceAnswer := none }
  let clock : CognitiveTask :=
    { id := "clock-drawing"
    , type := "clock-drawing"
    , title := "Clock Drawing"
    , description := "Imagine drawing a clock showing the time 10 past 11."
    , prompt := "Picture a clock and describe how you would place the numbers and hands for 11:10."
    , options := none
    , correctAnswer := none
    , sequenceAnswer := none }
  [word1, digit1, attention1, word2, digit2, visualSearch, clock]

/-! ## Chat widget (`Chatbot.tsx`)

The knowledge-base patterns are JavaScript regular expressions with the
`i` flag, used through `RegExp.prototype.test` (search anywhere in the
string).  They are embedded as a small regular-expression AST with a
Brzozowski-derivative matcher; the `i` flag is modelled by lowercasing the
query and writing the patterns in lowercase. -/

inductive Rx where
  | emp
  | eps
  | cls (p : Char → Bool)
  | seq (a b : Rx)
  | alt (a b : Rx)
  | star (a : Rx)

def Rx.nullable : Rx → Bool
  | .emp => false
  | .eps => true
  | .cls _ => false
  | .seq a b => a.nullable && b.nullable
  | .alt a b => a.nullable || b.nullable
  | .star _ => true

def Rx.derivRx : Rx → Char → Rx
  | .emp, _ => .emp
  | .eps, _ => .emp
  | .cls p, c => if p c then .eps else .emp
  | .seq a b, c =>
    if a.nullable then .alt (.seq (a.derivRx c) b) (b.derivRx c)
    else .seq (a.derivRx c) b
  | .alt a b, c => .alt (a.derivRx c) (b.derivRx c)
  | .star a, c => .seq (a.derivRx c) (.star a)

/-- Does some prefix of `l` match `r`? -/
def Rx.hitsAtStart : Rx → List Char → Bool
  | r, [] => r.nullable
  | r, c :: cs => r.nullable || (r.derivRx c).hitsAtStart cs

/-- Does some substring of `l` match `r` (JavaScript `test` semantics)? -/
def Rx.searchRx : Rx → List Char → Bool
  | r, [] => r.nullable
  | r, c :: cs => r.hitsAtStart (c :: cs) || r.searchRx cs

/-- Literal string pattern. -/
def litRx (s : String) : Rx :=
  s.data.foldr (fun c r => Rx.seq (Rx.cls (fun d => d = c)) r) Rx.eps

/-- Alternation `a|b|...` of literal alternatives. -/
def altsRx (l : List String) : Rx :=
  (l.map litRx).foldr Rx.alt Rx.emp

/-- `\s` character class. -/
def wsRx : Rx := Rx.cls Char.isWhitespace

/-- `r+`. -/
def plusRx (r : Rx) : Rx := Rx.seq r (Rx.star r)

/-- `r?`. -/
def optRx (r : Rx) : Rx := Rx.alt Rx.eps r

/-- `RegExp.prototype.test` with the `i` flag. -/
def rtest (r : Rx) (s : String) : Bool :=
  r.searchRx (s.data.map Char.toLower)

structure KBItem where
  q : Rx
  a : String

/-- The `KB` list of (pattern, canned answer) pairs, in source order. -/
def KB : List KBItem :=
  [ { q := Rx.seq
        (optRx (Rx.seq (litRx "what")
          (Rx.seq (plusRx wsRx) (Rx.seq (litRx "is") (plusRx wsRx)))))
        (litRx "dementia")
    , a := "Dementia is a syndrome affecting memory, thinking, behavior and the ability to perform everyday activities. Alzheimer\x27s disease is the most common cause." }
  , { q := altsRx ["symptom", "sign", "memory", "forget"]
    , a := "Common signs: memory loss, difficulty planning, confusion about time/place, language problems, poor judgment, mood/behavior changes." }
  , { q := altsRx ["risk", "cause"]
    , a := "Risk factors: age, family history, cardiovascular disease, diabetes, head injury, low physical/social activity." }
  , { q := altsRx ["prevent", "reduce", "lifestyle"]
    , a := "Healthy diet, exercise, cognitive and social engagement, good sleep, and blood pressure control may reduce risk." }
  , { q := altsRx ["diagnos", "test", "screen"]
    , a := "Diagnosis: clinical history, cognitive tests, labs, and imaging. Early screening helps plan care. Always consult a clinician." }
  , { q := altsRx ["treat", "cure", "medicat"]
    , a := "No cure for most dementias, but medicines and therapies can help manage symptoms and enhance quality of life." } ]

def disclaimerText : String := " (This is general info, not medical advice)"

def genericReply : String :=
  "I can share general information about dementia (not medical advice). Ask about symptoms, risk factors, prevention, diagnosis, or treatment."

/-- The `for (const item of KB) if (item.q.test(query)) ...` loop. -/
def firstHit : List KBItem → String → Option KBItem
  | [], _ => none
  | it :: rest, query => if rtest it.q query then some it else firstHit rest query

/-- `fallbackAnswer(query)`. -/
def fallbackAnswer (query : String) : String :=
  match firstHit KB query with
  | some it => it.a ++ disclaimerText
  | none => genericReply

/-- Answer of the `i`-th knowledge-base entry. -/
def kbAnswer (i : Nat) : String := (KB.getD i { q := Rx.emp, a := "" }).a

/-- Pattern test of the `i`-th knowledge-base entry. -/
def kbTest (i : Nat) (query : String) : Bool :=
  rtest (KB.getD i { q := Rx.emp, a := "" }).q query

/-! ### The chat send handler -/

/-- A transcript message (`Msg` in the source; role is "user" or "bot"). -/
structure Msg where
  role : String
  text : String
deriving DecidableEq, Repr

/-- The component state read and written by `handleSend`. -/
structure ChatState where
  input : String
  loading : Bool
  messages : List Msg
deriving DecidableEq, Repr

/-- `handleSend`, run to completion.  `reply` models the awaited
`callDeepSeek` call (its value may come from the remote API or from
`fallbackAnswer`); it receives the transcript as captured by the closure,
i.e. the messages before the user message is appended.  The second
component counts how many times `callDeepSeek` was invoked. -/
def handleSend (reply : List Msg → String → String) (s : ChatState) :
    ChatState × Nat :=
  let q := s.input.trim
  if q = "" ∨ s.loading = true then (s, 0)
  else
    ({ input := ""
     , loading := false
     , messages := s.messages ++
         [{ role := "user", text := q }, { role := "bot", text := reply s.messages q }] }
    , 1)

/-! ## Lemmas -/

/-- The two ways of writing a clamp to `[a, b]` agree when `a ≤ b`. -/
theorem clamp_comm (a b x : ℚ) (hab : a ≤ b) : min b (max a x) = max a (min b x) := by
  rcases le_total x a with h1 | h1 <;> rcases le_total x b with h2 | h2 <;>
    simp [min_def, max_def] <;> split_ifs <;> linarith

theorem pollAux_att_le {α : Type} (f : Nat → Option α) :
    ∀ (n i : Nat), (pollAux f i n).2.1 ≤ n := by
  intro n
  induction n with
  | zero => intro i; simp [pollAux]
  | succ n ih =>
    intro i
    cases h : f i with
    | some r => simp [pollAux, h]
    | none =>
      simp only [pollAux, h]
      exact Nat.succ_le_succ (ih (i + 1))

theorem pollAux_all_fail {α : Type} (f : Nat → Option α) :
    ∀ (n i : Nat), (∀ j, j < n → f (i + j) = none) →
      pollAux f i n = (none, n, List.replicate n 1000) := by
  intro n
  induction n with
  | zero => intro i _; simp [pollAux]
  | succ n ih =>
    intro i h
    have h0 : f i = none := by simpa using h 0 (Nat.succ_pos n)
    have hrest : ∀ j, j < n → f (i + 1 + j) = none := by
      intro j hj
      have := h (j + 1) (Nat.succ_lt_succ hj)
      rwa [show i + (j + 1) = i + 1 + j by omega] at this
    simp only [pollAux, h0, ih (i + 1) hrest, List.replicate_succ]

theorem pollAux_first_success {α : Type} (f : Nat → Option α) (r : α) :
    ∀ (k n i : Nat), k < n → f (i + k) = some r → (∀ j, j < k → f (i + j) = none) →
      pollAux f i n = (some r, k + 1, List.replicate k 1000) := by
  intro k
  induction k with
  | zero =>
    intro n i hn hf _
    obtain ⟨m, rfl⟩ := Nat.exists_eq_succ_of_ne_zero (Nat.pos_iff_ne_zero.mp hn)
    simp only [Nat.add_zero] at hf
    simp [pollAux, hf]
  | succ k ih =>
    intro n i hn hf hprev
    obtain ⟨m, rfl⟩ := Nat.exists_eq_succ_of_ne_zero
      (Nat.pos_iff_ne_zero.mp (Nat.lt_of_le_of_lt (Nat.zero_le _) hn))
    have h0 : f i = none := by simpa using hprev 0 (Nat.succ_pos k)
    have hf' : f (i + 1 + k) = some r := by
      rwa [show i + 1 + k = i + (k + 1) by omega]
    have hprev' : ∀ j, j < k → f (i + 1 + j) = none := by
      intro j hj
      have := hprev (j + 1) (Nat.succ_lt_succ hj)
      rwa [show i + (j + 1) = i + 1 + j by omega] at this
    have hk : k < m := Nat.lt_of_succ_lt_succ hn
    simp only [pollAux, h0, ih m (i + 1) hk hf' hprev', List.replicate_succ]

/-- For a present element, `jsIndexOf` is a non-negative in-range index
pointing back at the element. -/
theorem jsIndexOf_spec {α : Type} [DecidableEq α] (d : α) :
    ∀ (l : List α) (a : α), a ∈ l →
      0 ≤ jsIndexOf l a ∧ (jsIndexOf l a).toNat < l.length ∧
      l.getD (jsIndexOf l a).toNat d = a := by
  intro l
  induction l with
  | nil => intro a h; cases h
  | cons b t ih =>
    intro a h
    by_cases hab : a = b
    · subst hab
      refine ⟨by simp [jsIndexOf], by simp [jsIndexOf], by simp [jsIndexOf]⟩
    · have hat : a ∈ t := by
        rcases List.mem_cons.mp h with h' | h'
        · exact absurd h' hab
        · exact h'
      obtain ⟨h0, hlt, hget⟩ := ih a hat
      have hcond : ¬ jsIndexOf t a < 0 := not_lt.mpr h0
      have heq : jsIndexOf (b :: t) a = jsIndexOf t a + 1 := by
        simp [jsIndexOf, hab, hcond]
      have htn : (jsIndexOf t a + 1).toNat = (jsIndexOf t a).toNat + 1 := by omega
      refine ⟨by omega, ?_, ?_⟩
      · rw [heq, htn]; simpa using Nat.succ_lt_succ hlt
      · rw [heq, htn]; simpa using hget

/-- Indexing the options by `jsIndexOf` of each word reconstructs the
original word order. -/
theorem map_getD_jsIndexOf {α : Type} [DecidableEq α] (opts : List α) (d : α) :
    ∀ (ws : List α), (∀ w, w ∈ ws → w ∈ opts) →
      (ws.map (fun w => jsIndexOf opts w)).map (fun i => opts.getD i.toNat d) = ws := by
  intro ws
  induction ws with
  | nil => simp
  | cons w t ih =>
    intro h
    simp only [List.map_cons]
    rw [(jsIndexOf_spec d opts w (h w (List.mem_cons_self w t))).2.2,
      ih (fun x hx => h x (List.mem_cons_of_mem _ hx))]

theorem mem_jsSetDedupAux {α : Type} [DecidableEq α] (x : α) :
    ∀ (l seen : List α), x ∈ jsSetDedupAux l seen ↔ x ∈ l ∧ x ∉ seen := by
  intro l
  induction l with
  | nil => intro seen; simp [jsSetDedupAux]
  | cons a t ih =>
    intro seen
    by_cases ha : a ∈ seen
    · rw [jsSetDedupAux, if_pos ha, ih seen, List.mem_cons]
      by_cases hxa : x = a
      · subst hxa; simp [ha]
      · simp [hxa]
    · rw [jsSetDedupAux, if_neg ha, List.mem_cons, ih (a :: seen), List.mem_cons]
      by_cases hxa : x = a
      · subst hxa; simp [ha]
      · simp [hxa, List.mem_cons]

theorem mem_jsSetDedup {α : Type} [DecidableEq α] (x : α) (l : List α) :
    x ∈ jsSetDedup l ↔ x ∈ l := by
  unfold jsSetDedup
  rw [mem_jsSetDedupAux]
  simp

theorem jsSetDedupAux_length_le {α : Type} [DecidableEq α] :
    ∀ (l seen : List α), (jsSetDedupAux l seen).length ≤ l.length := by
  intro l
  induction l with
  | nil => intro seen; simp [jsSetDedupAux]
  | cons a t ih =>
    intro seen
    by_cases ha : a ∈ seen
    · rw [jsSetDedupAux, if_pos ha]
      exact Nat.le_succ_of_le (ih seen)
    · rw [jsSetDedupAux, if_neg ha]
      simpa using Nat.succ_le_succ (ih (a :: seen))

theorem jsSetDedup_length_le {α : Type} [DecidableEq α] (l : List α) :
    (jsSetDedup l).length ≤ l.length :=
  jsSetDedupAux_length_le l []

theorem jsSetDedupAux_nodup {α : Type} [DecidableEq α] :
    ∀ (l seen : List α), (jsSetDedupAux l seen).Nodup := by
  intro l
  induction l with
  | nil => intro seen; simp [jsSetDedupAux]
  | cons a t ih =>
    intro seen
    by_cases ha : a ∈ seen
    · rw [jsSetDedupAux, if_pos ha]; exact ih seen
    · rw [jsSetDedupAux, if_neg ha]
      refine List.Nodup.cons (fun hmem => ?_) (ih (a :: seen))
      exact ((mem_jsSetDedupAux a t (a :: seen)).mp hmem).2 (List.mem_cons_self _ _)

theorem jsSetDedup_nodup {α : Type} [DecidableEq α] (l : List α) :
    (jsSetDedup l).Nodup :=
  jsSetDedupAux_nodup l []

/-- A duplicate-free list is no longer than any list containing it. -/
theorem nodup_length_le_of_subset {α : Type} [DecidableEq α] (l₁ l₂ : List α)
    (h₁ : l₁.Nodup) (hsub : ∀ x, x ∈ l₁ → x ∈ l₂) : l₁.length ≤ l₂.length := by
  have hfin : l₁.toFinset ⊆ l₂.toFinset := by
    intro x hx
    exact List.mem_toFinset.mpr (hsub x (List.mem_toFinset.mp hx))
  calc l₁.length = l₁.toFinset.card := (List.toFinset_card_of_nodup h₁).symm
    _ ≤ l₂.toFinset.card := Finset.card_le_card hfin
    _ ≤ l₂.length := List.toFinset_card_le l₂

/-- Two word-recall pools drawn as in `generateCognitiveTasks` never share
a word: the second pool is drawn from the lexicon filtered against the
first pool. -/
theorem word_pools_disjoint (shA shB shW1 shW2 : List String → List String)
    (hB : ∀ l, (shB l).Perm l)
    (hW1 : ∀ l, (shW1 l).Perm l) (hW2 : ∀ l, (shW2 l).Perm l)
    (lex : List String) (w : String)
    (h1 : w ∈ shW1 ((shA lex).take 5))
    (h2 : w ∈ shW2 ((shB (lex.filter
      (fun x => !(((shA lex).take 5).contains x)))).take 5)) :
    False := by
  have hwA : w ∈ (shA lex).take 5 := ((hW1 _).mem_iff).mp h1
  have hwB : w ∈ (shB (lex.filter (fun x => !(((shA lex).take 5).contains x)))).take 5 :=
    ((hW2 _).mem_iff).mp h2
  have hwB' : w ∈ lex.filter (fun x => !(((shA lex).take 5).contains x)) :=
    ((hB _).mem_iff).mp (List.mem_of_mem_take hwB)
  have hpred := (List.mem_filter.mp hwB').2
  simp only [List.contains, List.elem_eq_mem, Bool.not_eq_true', decide_eq_false_iff_not] at hpred
  exact hpred hwA

/-- Reconstruction property of a digit-span option list: indexing the
stringified pool by `jsIndexOf` of each stringified digit yields the
digits, in prompt order. -/
theorem digit_recon (p : List Nat) (digits : List Nat)
    (hsub : ∀ d, d ∈ digits → d ∈ p) :
    (digits.map (fun d => jsIndexOf (p.map toString) (toString d))).map
      (fun i => (p.map toString).getD i.toNat "") = digits.map (fun d => toString d) := by
  have h1 : digits.map (fun d => jsIndexOf (p.map toString) (toString d)) =
      (digits.map (fun d => toString d)).map (fun w => jsIndexOf (p.map toString) w) := by
    simp [List.map_map, Function.comp]
  rw [h1]
  refine map_getD_jsIndexOf _ _ _ (fun w hw => ?_)
  obtain ⟨dd, hd, rfl⟩ := List.mem_map.mp hw
  exact List.mem_map_of_mem _ (hsub dd hd)

/-- The first knowledge-base entry whose pattern fires answers the query. -/
theorem firstHit_spec (d : KBItem) :
    ∀ (l : List KBItem) (query : String) (i : Nat), i < l.length →
      rtest (l.getD i d).q query = true →
      (∀ j, j < i → rtest (l.getD j d).q query = false) →
      firstHit l query = some (l.getD i d) := by
  intro l
  induction l with
  | nil => intro query i hi; simp at hi
  | cons it rest ih =>
    intro query i hi hhit hprev
    cases i with
    | zero =>
      simp only [List.getD_cons_zero] at hhit ⊢
      simp [firstHit, hhit]
    | succ i =>
      have h0 : rtest it.q query = false := by
        simpa using hprev 0 (Nat.succ_pos i)
      simp only [List.getD_cons_succ] at hhit ⊢
      rw [firstHit, if_neg (by simp [h0])]
      exact ih query i (Nat.lt_of_succ_lt_succ hi) hhit
        (fun j hj => by simpa using hprev (j + 1) (Nat.succ_lt_succ hj))

/-! ## Claim theorems -/

/-- C1.  The heuristic risk estimator normalizes each sub-score as
`min(1, score/max)` with per-domain maxima memory:2, attention:4,
language:1, executive:1, averages the four normalized scores without
weights, and returns `1 − (0.7 × cognitive_aggregate + 0.3 × coverage)`
clamped to `[0.02, 0.98]`. -/
theorem heuristic_probability_formula (s : Scores) (durs : DurationMap) :
    heuristicProbability s durs =
      max 0.02 (min 0.98
        (1 - (0.7 * ((min 1 (s.memoryScore / 2) + min 1 (s.attentionScore / 4) +
                      min 1 (s.languageScore / 1) + min 1 (s.executiveScore / 1)) / 4)
              + 0.3 * speechCoverage durs))) ∧
    0.02 ≤ heuristicProbability s durs ∧ heuristicProbability s durs ≤ 0.98 := by
  unfold heuristicProbability
  refine ⟨clamp_comm _ _ _ (by norm_num), le_min (by norm_num) (le_max_left _ _),
    min_le_left _ _⟩

/-- C2 (code bug).  The `0.5`-"neutral if no speech" branch of the coverage
computation is dead: its guard tests the length of the fixed three-element
task array, so with no speech task attempted the coverage is `0`, not
`0.5`, and with one fully attempted task the coverage is `1/3` (a mean
over all three tasks), not `1` (a mean over the attempted ones). -/
theorem speech_coverage_dead_neutral_branch :
    speechCoverage (fun _ => none) = 0 ∧
    speechCoverage (fun _ => none) ≠ 0.5 ∧
    speechCoverage (fun i => if i = "picture-description" then some 90000 else none) = 1 / 3 ∧
    speechCoverage (fun i => if i = "picture-description" then some 90000 else none) ≠ 1 := by
  refine ⟨?_, ?_, ?_, ?_⟩ <;> simp [speechCoverage, SPEECH_TASKS] <;> norm_num

/-- C5.  For every sub-score tuple within the domain maxima and every
speech-duration map, the heuristic probability lies in `[0.02, 0.98]`. -/
theorem heuristic_probability_range (s : Scores) (durs : DurationMap)
    (hm0 : 0 ≤ s.memoryScore) (hm : s.memoryScore ≤ 2)
    (ha0 : 0 ≤ s.attentionScore) (ha : s.attentionScore ≤ 4)
    (hl0 : 0 ≤ s.languageScore) (hl : s.languageScore ≤ 1)
    (he0 : 0 ≤ s.executiveScore) (he : s.executiveScore ≤ 1) :
    0.02 ≤ heuristicProbability s durs ∧ heuristicProbability s durs ≤ 0.98 := by
  unfold heuristicProbability
  exact ⟨le_min (by norm_num) (le_max_left _ _), min_le_left _ _⟩

/-- Witness for C5 at scores (1, 2, 1/2, 1/2) and no recorded speech. -/
theorem heuristic_probability_range_witness :
    0.02 ≤ heuristicProbability ⟨1, 2, 1/2, 1/2⟩ (fun _ => none) ∧
    heuristicProbability ⟨1, 2, 1/2, 1/2⟩ (fun _ => none) ≤ 0.98 :=
  heuristic_probability_range ⟨1, 2, 1/2, 1/2⟩ (fun _ => none)
    (by norm_num) (by norm_num) (by norm_num) (by norm_num)
    (by norm_num) (by norm_num) (by norm_num) (by norm_num)

/-- C6.  Risk level is a pure function of the probability with boundaries
exactly at `> 0.66` (High) and `> 0.33` (Medium), else Low, and is
monotonically non-decreasing in the probability. -/
theorem risk_level_thresholds_monotone :
    (∀ p : ℚ, (riskLevel p = "High" ↔ 0.66 < p) ∧
      (riskLevel p = "Medium" ↔ 0.33 < p ∧ p ≤ 0.66) ∧
      (riskLevel p = "Low" ↔ p ≤ 0.33)) ∧
    (∀ p₁ p₂ : ℚ, p₁ ≤ p₂ → levelRank (riskLevel p₁) ≤ levelRank (riskLevel p₂)) := by
  have hrank : ∀ p : ℚ,
      levelRank (riskLevel p) = if 0.66 < p then 2 else if 0.33 < p then 1 else 0 := by
    intro p
    unfold riskLevel levelRank
    by_cases h1 : p > 0.66 <;> by_cases h2 : p > 0.33 <;> simp [h1, h2]
  constructor
  · intro p
    unfold riskLevel
    by_cases h1 : p > 0.66
    · rw [if_pos h1]
      refine ⟨⟨fun _ => h1, fun _ => rfl⟩, ⟨?_, ?_⟩, ⟨?_, ?_⟩⟩
      · intro h; exact absurd h (by decide)
      · rintro ⟨_, h2⟩; exact absurd h1 (not_lt.mpr h2)
      · intro h; exact absurd h (by decide)
      · intro h2; exact absurd h1 (not_lt.mpr (le_trans h2 (by norm_num)))
    · by_cases h2 : p > 0.33
      · rw [if_neg h1, if_pos h2]
        refine ⟨⟨?_, ?_⟩, ⟨fun _ => ⟨h2, not_lt.mp h1⟩, fun _ => rfl⟩, ⟨?_, ?_⟩⟩
        · intro h; exact absurd h (by decide)
        · intro h3; exact absurd h3 h1
        · intro h; exact absurd h (by decide)
        · intro h3; exact absurd h2 (not_lt.mpr h3)
      · rw [if_neg h1, if_neg h2]
        refine ⟨⟨?_, ?_⟩, ⟨?_, ?_⟩, ⟨fun _ => not_lt.mp h2, fun _ => rfl⟩⟩
        · intro h; exact absurd h (by decide)
        · intro h3; exact absurd h3 h1
        · intro h; exact absurd h (by decide)
        · rintro ⟨h3, _⟩; exact absurd h3 h2
  · intro p₁ p₂ h
    rw [hrank, hrank]
    split_ifs <;> linarith

/-- Witness for C6: 0.5 ≤ 0.7 and the levels are ordered accordingly. -/
theorem risk_level_monotone_witness :
    levelRank (riskLevel 0.5) ≤ levelRank (riskLevel 0.7) :=
  risk_level_thresholds_monotone.2 0.5 0.7 (by norm_num)

/-- C7.  The remote-scoring path fetches at most 15 times, sleeps 1000 ms
after each failed attempt, stops at the first successful fetch, and when
all 15 attempts fail it reports the "pending" notice instead of
throwing. -/
theorem poll_loop_bounded {α : Type} (f : Nat → Option α) :
    (pollLoop f).2.1 ≤ 15 ∧
    (∀ k r, k < 15 → f k = some r → (∀ j, j < k → f j = none) →
      pollLoop f = (some r, k + 1, List.replicate k 1000) ∧
      remotePath f = RemoteOutcome.shown r) ∧
    ((∀ j, j < 15 → f j = none) →
      pollLoop f = (none, 15, List.replicate 15 1000) ∧
      remotePath f = RemoteOutcome.pendingNotice) := by
  refine ⟨pollAux_att_le f 15 0, ?_, ?_⟩
  · intro k r hk hf hprev
    have hf' : f (0 + k) = some r := by simpa using hf
    have hprev' : ∀ j, j < k → f (0 + j) = none := by
      intro j hj; simpa using hprev j hj
    have heq := pollAux_first_success f r k 15 0 hk hf' hprev'
    refine ⟨heq, ?_⟩
    unfold remotePath pollLoop
    unfold pollLoop at heq
    rw [heq]
  · intro h
    have h' : ∀ j, j < 15 → f (0 + j) = none := by
      intro j hj; simpa using h j hj
    have heq := pollAux_all_fail f 15 0 h'
    refine ⟨heq, ?_⟩
    unfold remotePath pollLoop
    unfold pollLoop at heq
    rw [heq]

/-- Witness for C7: when every one of the 15 fetch attempts throws, the
loop makes 15 attempts with 15 one-second sleeps and the UI reports the
pending notice. -/
theorem poll_loop_bounded_witness :
    pollLoop (fun _ => (none : Option Nat)) = (none, 15, List.replicate 15 1000) ∧
    remotePath (fun _ => (none : Option Nat)) = RemoteOutcome.pendingNotice :=
  (poll_loop_bounded (fun _ => (none : Option Nat))).2.2 (fun _ _ => rfl)

/-- C4.  For every language and every lawful shuffle outcome, task
generation produces exactly 7 tasks; the two word-recall tasks share no
common word; and for every task carrying a correct-sequence answer,
indexing the task's shuffled options by the answer, position by position,
reconstructs the word sequence displayed in the task's prompt, in original
order. -/
theorem generate_tasks_structure (r : Rand) (hr : r.Lawful) (language : String) :
    (generateCognitiveTasks r language).length = 7 ∧
    (∀ t₁ t₂, t₁ ∈ generateCognitiveTasks r language →
      t₂ ∈ generateCognitiveTasks r language →
      t₁.type = "word-recall" → t₂.type = "word-recall" → t₁.id ≠ t₂.id →
      ∀ o₁ o₂, t₁.options = some o₁ → t₂.options = some o₂ →
        ∀ w, w ∈ o₁ → w ∉ o₂) ∧
    (∀ t, t ∈ generateCognitiveTasks r language →
      ∀ opts ans, t.options = some opts → t.sequenceAnswer = some ans →
        ∃ ws, ans.map (fun i => opts.getD i.toNat "") = ws ∧
          (t.prompt = "Remember the words: " ++ String.intercalate ", " ws ++ "." ∨
           t.prompt = String.intercalate ", " ws)) := by
  obtain ⟨hA, hB, hWA, hWB, hP1, hD1, hP2, hD2⟩ := hr
  refine ⟨rfl, ?_, ?_⟩
  · intro t₁ t₂ ht₁ ht₂ hty₁ hty₂ hne o₁ o₂ ho₁ ho₂ w hw₁ hw₂
    simp only [generateCognitiveTasks, List.mem_cons, List.not_mem_nil, or_false] at ht₁ ht₂
    rcases ht₁ with rfl | rfl | rfl | rfl | rfl | rfl | rfl
    · rcases ht₂ with rfl | rfl | rfl | rfl | rfl | rfl | rfl
      · exact hne rfl
      · exact absurd hty₂ (by simp [makeDigitSpanTask])
      · exact absurd hty₂ (by simp)
      · have e₁ : r.shWordsA _ = o₁ := Option.some.inj ho₁
        have e₂ : r.shWordsB _ = o₂ := Option.some.inj ho₂
        exact word_pools_disjoint r.shLexA r.shLexB r.shWordsA r.shWordsB hB hWA hWB _ w
          (e₁ ▸ hw₁) (e₂ ▸ hw₂)
      · exact absurd hty₂ (by simp [makeDigitSpanTask])
      · exact absurd hty₂ (by simp)
      · exact absurd hty₂ (by simp)
    · exact absurd hty₁ (by simp [makeDigitSpanTask])
    · exact absurd hty₁ (by simp)
    · rcases ht₂ with rfl | rfl | rfl | rfl | rfl | rfl | rfl
      · have e₁ : r.shWordsB _ = o₁ := Option.some.inj ho₁
        have e₂ : r.shWordsA _ = o₂ := Option.some.inj ho₂
        exact word_pools_disjoint r.shLexA r.shLexB r.shWordsA r.shWordsB hB hWA hWB _ w
          (e₂ ▸ hw₂) (e₁ ▸ hw₁)
      · exact absurd hty₂ (by simp [makeDigitSpanTask])
      · exact absurd hty₂ (by simp)
      · exact hne rfl
      · exact absurd hty₂ (by simp [makeDigitSpanTask])
      · exact absurd hty₂ (by simp)
      · exact absurd hty₂ (by simp)
    · exact absurd hty₁ (by simp [makeDigitSpanTask])
    · exact absurd hty₁ (by simp)
    · exact absurd hty₁ (by simp)
  · intro t ht opts ans hopts hans
    simp only [generateCognitiveTasks, List.mem_cons, List.not_mem_nil, or_false] at ht
    rcases ht with rfl | rfl | rfl | rfl | rfl | rfl | rfl
    · have ho : r.shWordsA _ = opts := Option.some.inj hopts
      have ha := Option.some.inj hans
      refine ⟨_, ?_, Or.inl rfl⟩
      rw [← ha, ← ho]
      exact map_getD_jsIndexOf _ _ _ (fun w hw => ((hWA _).mem_iff).mpr hw)
    · have ho : (r.shDigPool1 _).map toString = opts := Option.some.inj hopts
      have ha := Option.some.inj hans
      refine ⟨[3, 9, 1, 4, 7].map (fun d => toString d), ?_, Or.inr rfl⟩
      rw [← ha, ← ho]
      exact digit_recon _ _ (fun d hd =>
        ((hP1 _).mem_iff).mpr ((mem_jsSetDedup _ _).mpr (List.mem_append_left _ hd)))
    · simp at hans
    · have ho : r.shWordsB _ = opts := Option.some.inj hopts
      have ha := Option.some.inj hans
      refine ⟨_, ?_, Or.inl rfl⟩
      rw [← ha, ← ho]
      exact map_getD_jsIndexOf _ _ _ (fun w hw => ((hWB _).mem_iff).mpr hw)
    · have ho : (r.shDigPool2 _).map toString = opts := Option.some.inj hopts
      have ha := Option.some.inj hans
      refine ⟨[7, 2, 9, 3].map (fun d => toString d), ?_, Or.inr rfl⟩
      rw [← ha, ← ho]
      exact digit_recon _ _ (fun d hd =>
        ((hP2 _).mem_iff).mpr ((mem_jsSetDedup _ _).mpr (List.mem_append_left _ hd)))
    · simp at hans
    · simp at hans

/-- Witness for C4 at the identity shuffle outcome and language "en". -/
theorem generate_tasks_structure_witness :
    (generateCognitiveTasks idRand "en").length = 7 :=
  (generate_tasks_structure idRand idRand_lawful "en").1

/-- C8.  A language code missing from the lexicon generates exactly the
tasks of the English default, for any shuffle outcome. -/
theorem unknown_language_fallback (language : String)
    (h : wordsByLang language = none) (r : Rand) :
    generateCognitiveTasks r language = generateCognitiveTasks r "en" := by
  unfold generateCognitiveTasks
  rw [h]
  rfl

/-- Witness for C8 at language "xx" and the identity shuffle outcome. -/
theorem unknown_language_fallback_witness :
    generateCognitiveTasks idRand "xx" = generateCognitiveTasks idRand "en" :=
  unknown_language_fallback "xx" rfl idRand

/-- C9.  For a digit-span task built from distinct digits, the options
contain every prompted digit, every correct-sequence entry is a
non-negative in-range index (never −1), and the options list's length lies
between the number of prompted digits and that number plus five. -/
theorem digit_span_options_safe (shPool shDigits : List Nat → List Nat)
    (hPool : ∀ l, (shPool l).Perm l) (hDigits : ∀ l, (shDigits l).Perm l)
    (id title : String) (digits : List Nat) (hnd : digits.Nodup) :
    ∀ opts ans, (makeDigitSpanTask shPool shDigits id title digits).options = some opts →
      (makeDigitSpanTask shPool shDigits id title digits).sequenceAnswer = some ans →
      (∀ dd, dd ∈ digits → toString dd ∈ opts) ∧
      (∀ a, a ∈ ans → 0 ≤ a ∧ a.toNat < opts.length) ∧
      digits.length ≤ opts.length ∧ opts.length ≤ digits.length + 5 := by
  intro opts ans hopts hans
  have ho : (shPool (jsSetDedup (digits ++
      (shDigits [0, 1, 2, 3, 4, 5, 6, 7, 8, 9]).take 5))).map toString = opts :=
    Option.some.inj hopts
  have ha := Option.some.inj hans
  subst ho
  have hmemN : ∀ dd, dd ∈ digits →
      dd ∈ shPool (jsSetDedup (digits ++ (shDigits [0, 1, 2, 3, 4, 5, 6, 7, 8, 9]).take 5)) :=
    fun dd hd => ((hPool _).mem_iff).mpr
      ((mem_jsSetDedup _ _).mpr (List.mem_append_left _ hd))
  refine ⟨?_, ?_, ?_, ?_⟩
  · intro dd hd
    exact List.mem_map_of_mem _ (hmemN dd hd)
  · intro a hamem
    rw [← ha] at hamem
    obtain ⟨dd, hd, rfl⟩ := List.mem_map.mp hamem
    obtain ⟨h0, hlt, _⟩ := jsIndexOf_spec "" _ (toString dd)
      (List.mem_map_of_mem _ (hmemN dd hd))
    exact ⟨h0, hlt⟩
  · rw [List.length_map, (hPool _).length_eq]
    exact nodup_length_le_of_subset digits _ hnd
      (fun x hx => (mem_jsSetDedup _ _).mpr (List.mem_append_left _ hx))
  · rw [List.length_map, (hPool _).length_eq]
    calc (jsSetDedup (digits ++ (shDigits [0, 1, 2, 3, 4, 5, 6, 7, 8, 9]).take 5)).length
        ≤ (digits ++ (shDigits [0, 1, 2, 3, 4, 5, 6, 7, 8, 9]).take 5).length :=
          jsSetDedup_length_le _
      _ = digits.length + ((shDigits [0, 1, 2, 3, 4, 5, 6, 7, 8, 9]).take 5).length :=
          List.length_append _ _
      _ ≤ digits.length + 5 := Nat.add_le_add_left (List.length_take_le _ _) _

/-- Witness for C9 at the identity shuffles and digits 3, 9, 1, 4, 7. -/
theorem digit_span_options_safe_witness :
    ([3, 9, 1, 4, 7] : List Nat).length ≤
      (["3", "9", "1", "4", "7", "0", "2"] : List String).length ∧
    (["3", "9", "1", "4", "7", "0", "2"] : List String).length ≤
      ([3, 9, 1, 4, 7] : List Nat).length + 5 := by
  have h := digit_span_options_safe id id (fun l => List.Perm.refl l)
    (fun l => List.Perm.refl l) "digit-span" "Digit Span" [3, 9, 1, 4, 7] (by decide)
    ["3", "9", "1", "4", "7", "0", "2"] [0, 1, 2, 3, 4] rfl rfl
  exact ⟨h.2.2.1, h.2.2.2⟩

set_option maxRecDepth 4096 in
/-- C3 (counterexample).  The query "What causes dementia risk" does NOT
return the risk/cause canned answer (entry 2 of the knowledge base): the
word "dementia" in the query already fires the first pattern, whose
`(what\s+is\s+)?` group is optional. -/
theorem fallback_risk_query_cex :
    fallbackAnswer "What causes dementia risk" ≠ kbAnswer 2 ++ disclaimerText := by
  decide

set_option maxRecDepth 4096 in
/-- C3 (amended).  The fallback matcher returns the canned answer of the
first pattern in order that matches the query, with the fixed disclaimer
appended; the query "What causes dementia risk" therefore returns the
dementia-definition answer (entry 0), and the unmatched query "hello"
returns the generic disclaimer-and-menu response. -/
theorem fallback_first_match_amended :
    (∀ query i, i < KB.length → kbTest i query = true →
      (∀ j, j < i → kbTest j query = false) →
      fallbackAnswer query = kbAnswer i ++ disclaimerText) ∧
    fallbackAnswer "What causes dementia risk" = kbAnswer 0 ++ disclaimerText ∧
    fallbackAnswer "hello" = genericReply := by
  refine ⟨?_, by decide, by decide⟩
  intro query i hi hhit hprev
  have hfh := firstHit_spec { q := Rx.emp, a := "" } KB query i hi hhit hprev
  unfold fallbackAnswer
  rw [hfh]
  rfl

set_option maxRecDepth 4096 in
/-- Witness for C3's amended theorem: the first pattern fires on the
query, no earlier pattern exists, and the matcher answers with entry 0. -/
theorem fallback_first_match_amended_witness :
    fallbackAnswer "What causes dementia risk" = kbAnswer 0 ++ disclaimerText :=
  fallback_first_match_amended.1 "What causes dementia risk" 0 (by decide) (by decide)
    (fun j hj => absurd hj (Nat.not_lt_zero j))

/-- C10.  The chat send operation is a no-op (transcript unchanged, no
remote call) when the trimmed input is empty or a reply is still loading;
otherwise it appends exactly one user message and one bot message and
makes exactly one call. -/
theorem chat_send_noop_or_append (reply : List Msg → String → String) (s : ChatState) :
    ((s.input.trim = "" ∨ s.loading = true) → handleSend reply s = (s, 0)) ∧
    (s.input.trim ≠ "" → s.loading = false →
      handleSend reply s =
        ({ input := ""
         , loading := false
         , messages := s.messages ++
             [{ role := "user", text := s.input.trim },
              { role := "bot", text := reply s.messages s.input.trim }] }, 1)) := by
  constructor
  · intro h
    simp only [handleSend]
    rw [if_pos h]
  · intro h1 h2
    simp only [handleSend]
    rw [if_neg (by simp [h1, h2])]

/-- Witness for C10: with a reply still loading, send leaves the state
untouched and makes no call. -/
theorem chat_send_noop_or_append_witness :
    handleSend (fun _ _ => "ok") { input := "x", loading := true, messages := [] } =
      ({ input := "x", loading := true, messages := [] }, 0) :=
  (chat_send_noop_or_append (fun _ _ => "ok")
    { input := "x", loading := true, messages := [] }).1 (Or.inr rfl)

end Sih
